import Mathlib

/-!
Verification of the code-generation / validation / execution subsystem of a
multi-agent tabular-data cleaning pipeline (a Streamlit application under
`src/`).  The Python source is embedded shallowly: pure helpers become Lean
functions; calls to external collaborators (the LLM client, `json.dumps`,
CPython's `ast.parse`, `subprocess.run`, `pandas`, the filesystem) are
modelled as explicit oracle parameters or as explicit outcome values at
their interface boundary.  Python strings are modelled as Lean `String` /
`List Char`; the Unicode-aware whitespace and line-break classes of Python
are modelled by their ASCII core.
-/

namespace MedClean

/-- Python whitespace class (ASCII core of `\s` and `str.strip()`). -/
def isPySpace (c : Char) : Bool :=
  c == ' ' || c == '\t' || c == '\n' || c == '\x0d' || c == '\x0b' || c == '\x0c'

/-- The `[ \t]` character class used by `textwrap.dedent`. -/
def isIndentChar (c : Char) : Bool := c == ' ' || c == '\t'

/-- The backquote character. -/
def btick : Char := Char.ofNat 96

/-- Three backquotes, the fence delimiter, as a character list. -/
def ticks3 : List Char := [btick, btick, btick]

/-- Does the text start with a triple backquote fence delimiter? -/
def startsWithTicks (l : List Char) : Bool := ticks3.isPrefixOf l

/-- Strip leading and trailing Python whitespace (Python `str.strip()`). -/
def pyStripList (cs : List Char) : List Char :=
  ((cs.dropWhile isPySpace).reverse.dropWhile isPySpace).reverse

/-- `str.strip()` on a `String`. -/
def pyStrip (s : String) : String := String.mk (pyStripList s.data)

/-- Does `pat` occur as a contiguous run inside the second list? -/
def hasSub (pat : List Char) : List Char → Bool
  | [] => pat.isEmpty
  | c :: rest => pat.isPrefixOf (c :: rest) || hasSub pat rest

/-- Drop `pre` from the front of `p`, if the whole of `pre` is there. -/
def dropPre? : List Char → List Char → Option (List Char)
  | [], p => some p
  | _ :: _, [] => none
  | a :: as, b :: bs => if a = b then dropPre? as bs else none

/-- Python line-break characters (ASCII core of `str.splitlines`). -/
def isLineBreak (c : Char) : Bool :=
  c == '\n' || c == '\x0d' || c == '\x0b' || c == '\x0c' ||
  c == '\x1c' || c == '\x1d' || c == '\x1e'

/-- Accumulator loop for `str.splitlines` (`\r\n` counts as one break;
a trailing break does not open a final empty line). -/
def splitlinesAux : List Char → List Char → List (List Char)
  | [], acc => if acc.isEmpty then [] else [acc]
  | '\x0d' :: '\n' :: rest, acc => acc :: splitlinesAux rest []
  | c :: rest, acc =>
    if isLineBreak c then acc :: splitlinesAux rest []
    else splitlinesAux rest (acc ++ [c])

/-- Python `str.splitlines()`. -/
def splitlines (s : String) : List (List Char) := splitlinesAux s.data []

/-- Accumulator loop for Python `str.split('\n')` (keeps empty pieces). -/
def splitNLAux : List Char → List Char → List (List Char)
  | [], acc => [acc]
  | c :: rest, acc =>
    if c = '\n' then acc :: splitNLAux rest []
    else splitNLAux rest (acc ++ [c])

/-- Python `text.split('\n')`. -/
def splitNL (cs : List Char) : List (List Char) := splitNLAux cs []

/-- Python `"\n".join(lines)`. -/
def joinNL : List (List Char) → List Char
  | [] => []
  | [x] => x
  | x :: y :: rest => x ++ '\n' :: joinNL (y :: rest)

/-- Lazy search for a closing fence: the shortest split
`cs = inner ++ fence ++ rest` with `inner` possibly empty. -/
def findClose0 : List Char → Option (List Char)
  | [] => none
  | c :: rest =>
    if startsWithTicks (c :: rest) then some []
    else (findClose0 rest).map (fun r => c :: r)

/-- The lazy capture `([\s\S]+?)` followed by the closing fence: at least
one captured character, then the shortest completion. -/
def findClose : List Char → Option (List Char)
  | [] => none
  | c :: rest => (findClose0 rest).map (fun r => c :: r)

/-- Backtracking over the greedy `\s*`: `wsRev` holds the whitespace the
greedy run consumed, last character first; on failure of the rest of the
pattern the characters are handed back one at a time. -/
def tryW : List Char → List Char → Option (List Char)
  | [], t2 => findClose t2
  | c :: wsRev, t2 =>
    match findClose t2 with
    | some r => some r
    | none => tryW wsRev (c :: t2)

/-- The characters of the optional language tag. -/
def pythonTag : List Char := "python".data

/-- Match the body of the fence regex after an opening fence, following
Python's backtracking: the optional `python` tag is preferred, `\s*` is
greedy, the capture group is lazy. -/
def matchAfterTicks (t : List Char) : Option (List Char) :=
  match dropPre? pythonTag t with
  | some t1 =>
    match tryW (t1.takeWhile isPySpace).reverse (t1.dropWhile isPySpace) with
    | some r => some r
    | none => tryW (t.takeWhile isPySpace).reverse (t.dropWhile isPySpace)
  | none => tryW (t.takeWhile isPySpace).reverse (t.dropWhile isPySpace)

/-- `re.search` with the fence pattern: scan for the first position where
the whole pattern matches, returning the capture group. -/
def fenceSearch : List Char → Option (List Char)
  | [] => none
  | c :: rest =>
    if startsWithTicks (c :: rest) then
      match matchAfterTicks (rest.drop 2) with
      | some r => some r
      | none => fenceSearch rest
    else fenceSearch rest

/-- The alternatives of the statement-start pattern
`^\s*(import |from |def |class |#|@|with |if |print\(|open\()`. -/
def stmtStarts : List (List Char) :=
  ["import ", "from ", "def ", "class ", "#", "@", "with ", "if ",
   "print(", "open("].map String.data

/-- Does a line match the statement-start pattern?  The alternatives all
begin with a non-whitespace character, so the greedy `\s*` is equivalent to
dropping the maximal whitespace run. -/
def isStmtLine (line : List Char) : Bool :=
  stmtStarts.any (fun p => p.isPrefixOf (line.dropWhile isPySpace))

/-- Index of the first element satisfying `p` (the `for i, line in
enumerate(lines)` loop with an early `return`). -/
def firstIdxAux (p : List Char → Bool) : List (List Char) → Option Nat
  | [] => none
  | l :: ls => if p l then some 0 else (firstIdxAux p ls).map (· + 1)

/-- Embedding of `_extract_code_from_text` (src/utils/agents.py, lines
6-19): first fenced block, else suffix from the first statement-like line,
else the whole input, each trimmed. -/
def _extract_code_from_text (text : String) : String :=
  match fenceSearch text.data with
  | some inner => String.mk (pyStripList inner)
  | none =>
    let lines := splitlines text
    match firstIdxAux isStmtLine lines with
    | some i => String.mk (pyStripList (joinNL (lines.drop i)))
    | none => pyStrip text

/-- Embedding of `_is_valid_python` (src/utils/agents.py, lines 22-28).
CPython's `ast.parse` is external to this repository and is modelled at its
interface boundary: `parse code = .ok ()` when the text parses, and
`.error e` when it raises an exception whose rendering is the string `e`.
The `try/except` of the source catches every exception and converts it to
the diagnostic component of the returned pair. -/
def _is_valid_python (parse : String → Except String Unit) (code : String) :
    Bool × String :=
  match parse code with
  | .ok _ => (true, "")
  | .error e => (false, e)

/-- Nonempty lines made only of spaces and tabs: the lines that
`textwrap.dedent` blanks before computing the margin. -/
def isWsOnlyLine (l : List Char) : Bool := !l.isEmpty && l.all isIndentChar

/-- Longest common front of two indent runs: the `startswith` cases of the
margin-merging loop of `textwrap.dedent` coincide with the common front. -/
def commonIndent : List Char → List Char → List Char
  | a :: as, b :: bs => if a = b then a :: commonIndent as bs else []
  | _, _ => []

/-- Embedding of `textwrap.dedent` (CPython standard library, applied by
`agent2_generate` to the extracted code): whitespace-only lines are
blanked, the common leading `[ \t]` margin of the remaining lines is
computed, and the margin is removed from the front of each line carrying
it. -/
def dedent (text : String) : String :=
  let lines := (splitNL text.data).map (fun l => if isWsOnlyLine l then [] else l)
  let indents := (lines.filter (fun l => l.any (fun c => !isIndentChar c))).map
    (fun l => l.takeWhile isIndentChar)
  let margin := match indents with
    | [] => []
    | i :: rest => rest.foldl commonIndent i
  let lines2 := if margin.isEmpty then lines
    else lines.map (fun l => if margin.isPrefixOf l then l.drop margin.length else l)
  String.mk (joinNL lines2)

/-- `APP_DATA` of src/utils/helpers.py. -/
def APP_DATA : String := "app_data"

/-- Directory of raw uploads. -/
def UPLOAD_DIR : String := APP_DATA ++ "/uploads"

/-- Directory of cleaned tables. -/
def CLEANED_DIR : String := APP_DATA ++ "/cleaned"

/-- Directory of generated scripts. -/
def SCRIPTS_DIR : String := APP_DATA ++ "/scripts"

/-- Directory of QA reports. -/
def REPORTS_DIR : String := APP_DATA ++ "/reports"

/-- The system instruction of Agent 2 (src/utils/agents.py, lines
109-133). -/
def agent2_system_prompt : String :=
  "\nYou are a Python data engineer.\n" ++
  "Return ONLY a complete Python script as plain text.\n" ++
  "Do NOT include explanations, markdown, or triple backticks.\n" ++
  "\nRules for the script:\n" ++
  "1. Must be valid Python code with no syntax errors.\n" ++
  "2. Read CSV/XLSX from src_path.\n" ++
  "3. mapping is a Python dictionary, not part of the DataFrame.  \n" ++
  "   - Use mapping.get('terminology', \x7b\x7d) to access terminology mappings.\n" ++
  "   - Rename columns only if they exist in the DataFrame.\n" ++
  "4. Always check if a column exists before processing.\n" ++
  "5. For datetime columns:\n" ++
  "   - Convert using pd.to_datetime(col, errors='coerce', utc=True).\n" ++
  "   - If valid dates exist, create two columns: <col>_date (YYYY-MM-DD) and <col>_time (HH:MM:SS).\n" ++
  "   - Drop the original column only if instructed, else keep as string.\n" ++
  "6. For mixed-type or object columns:\n" ++
  "   - Safely cast to string before saving to CSV.\n" ++
  "7. When filling null values, avoid chained assignment:\n" ++
  "      df[col] = df[col].fillna('Unknown')\n" ++
  "8. Avoid KeyErrors by always checking column existence first.\n" ++
  "9. Print final row/col counts at the end.\n" ++
  "10. Save cleaned CSV to out_path.\n" ++
  "11. The script must run without warnings or errors even if some columns don't exist.\n"

/-- Embedding of `agent2_generate` (src/utils/agents.py, lines 99-165).
External collaborators are oracle parameters: `client sys user` is the
chat-completion response to the message list `[system sys, user user]`
(the retry sends a single system message, modelled with an empty user
payload); `parse` is CPython's `ast.parse` as in `_is_valid_python`;
`dumps a b c d` is `json.dumps` on the context dictionary with entries
`src_path := a, issues := b, mapping := c, out_path := d` in insertion
order (`issues` and `mapping` are carried opaquely in serialized form).
Besides the source's `(code, out_path)` return value, the embedding
returns the trace of `(system, user)` prompts sent to the generation
service, making the bounded-retry policy observable.  The output path
`os.path.join(CLEANED_DIR, "cleaned_" + file_id + ".csv")` is named
first. -/
def agent2_out_path (file_id : String) : String :=
  CLEANED_DIR ++ "/cleaned_" ++ file_id ++ ".csv"

/-- The serialized context dictionary of Agent 2
(`json.dumps({"src_path": .., "issues": .., "mapping": .., "out_path": ..})`,
with `dumps` the external serializer applied to the four entries in
insertion order). -/
def agent2_ctx (dumps : String → String → String → String → String)
    (src_path issues mapping file_id : String) : String :=
  dumps src_path issues mapping (agent2_out_path file_id)

/-- The stricter retry prompt of Agent 2 (src/utils/agents.py, lines
152-156), embedding the validator's diagnostic and the serialized
context. -/
def agent2_retry_prompt (diag ctx : String) : String :=
  "\nPrevious code had syntax errors: " ++ diag ++
  ".\nReturn ONLY valid Python code as plain text. No markdown, no ``` fences.\nContext: " ++
  ctx ++ "\n"

def agent2_generate (client : String → String → String)
    (parse : String → Except String Unit)
    (dumps : String → String → String → String → String)
    (src_path issues mapping file_id : String) :
    (String × String) × List (String × String) :=
  let out_path := agent2_out_path file_id
  let ctx := agent2_ctx dumps src_path issues mapping file_id
  let resp := client agent2_system_prompt ctx
  let raw_code := _extract_code_from_text resp
  let v := _is_valid_python parse raw_code
  if v.1 then ((dedent raw_code, out_path), [(agent2_system_prompt, ctx)])
  else
    let retry_prompt := agent2_retry_prompt v.2 ctx
    let resp2 := client retry_prompt ""
    ((dedent (_extract_code_from_text resp2), out_path),
     [(agent2_system_prompt, ctx), (retry_prompt, "")])

/-- Outcome of the `subprocess.run` call inside `run_script`, at its
interface boundary: the child completed with an exit status and captured
streams, or the wall-clock timeout fired (`subprocess.TimeoutExpired`,
the library having terminated the child), or launching failed with some
other exception rendered as `msg`. -/
inductive ProcResult where
  | completed (returncode : Int) (stdout stderr : String)
  | timedout
  | failed (msg : String)
  deriving DecidableEq

/-- Embedding of `run_script` (src/utils/helpers.py, lines 43-55): the
sandboxed executor, returning `(returncode, stdout, stderr)` and
converting both timeout and launch failure into synthetic non-zero
outcomes instead of raising. -/
def run_script (proc : ProcResult) (timeout : Nat := 300) :
    Int × String × String :=
  match proc with
  | .completed rc out err => (rc, out, err)
  | .timedout => (1, "", "Script timed out after " ++ toString timeout ++ " seconds")
  | .failed msg => (1, "", "Error running script: " ++ msg)

/-- A tabular value at the Tabular Reader boundary, reduced to what
`agent3_qa` consumes: `len(df)` and `len(df.columns)`. -/
structure Table where
  rows : Nat
  cols : Nat
  deriving DecidableEq

/-- The before/after metrics context assembled by Agent 3. -/
structure QaMetrics where
  before_rows : Nat
  before_cols : Nat
  after_rows : Nat
  after_cols : Nat
  row_delta : Int
  col_delta : Int
  deriving DecidableEq

/-- The system instruction of Agent 3 (src/utils/agents.py, lines
185-191). -/
def qa_system_prompt : String :=
  "\nYou are a data-quality auditor.\n" ++
  "Write a clear Markdown report (5-8 bullet points) summarizing:\n" ++
  "- Changes in row/col counts\n" ++
  "- Data quality improvements\n" ++
  "- Potential risks or next steps\n"

/-- Embedding of `agent3_qa` (src/utils/agents.py, lines 170-209).
Oracles: `exs p` is `os.path.exists(p)`; `readT p` is `read_any(p)`
reduced to the counts consumed; `client sys user` is the chat completion
producing the Markdown report; `dumps` is `json.dumps` on the metrics
context.  The source's `raise FileNotFoundError` is the `.error` case.
On success the metrics context, report text and report path are
returned. -/
def agent3_qa (exs : String → Bool) (readT : String → Table)
    (client : String → String → String) (dumps : QaMetrics → String)
    (src_path cleaned_path file_id : String) :
    Except String (QaMetrics × String × String) :=
  if !(exs src_path) || !(exs cleaned_path) then
    .error "Original or cleaned file missing."
  else
    let src_df := readT src_path
    let clean_df := readT cleaned_path
    let m : QaMetrics :=
      { before_rows := src_df.rows, before_cols := src_df.cols
      , after_rows := clean_df.rows, after_cols := clean_df.cols
      , row_delta := (clean_df.rows : Int) - (src_df.rows : Int)
      , col_delta := (clean_df.cols : Int) - (src_df.cols : Int) }
    let report := client qa_system_prompt (dumps m)
    let rpath := REPORTS_DIR ++ "/" ++ file_id ++ "/report_" ++ file_id ++ ".md"
    .ok (m, report, rpath)

/-- The date separators (dash or slash) of the profiling date pattern. -/
def isDateSep (c : Char) : Bool := c == '-' || c == '/'

/-- Match of the date pattern (runs of 1-4, 1-2, 1-4 digits joined by dash-or-slash separators) anchored at the front of
`cs`.  A digit is never a separator, so the bounded-greedy digit runs
match exactly when the maximal digit run before each separator has a
length inside the stated bounds; nothing follows the last run, so any
nonempty final run matches. -/
def dateAt (cs : List Char) : Bool :=
  let r1 := (cs.takeWhile Char.isDigit).length
  match cs.dropWhile Char.isDigit with
  | s1 :: cs2 =>
    isDateSep s1 && decide (1 ≤ r1) && decide (r1 ≤ 4) &&
    (let r2 := (cs2.takeWhile Char.isDigit).length
     match cs2.dropWhile Char.isDigit with
     | s2 :: cs4 =>
       isDateSep s2 && decide (1 ≤ r2) && decide (r2 ≤ 2) &&
       decide (1 ≤ (cs4.takeWhile Char.isDigit).length)
     | [] => false)
  | [] => false

/-- `re.search` with the date pattern: some suffix matches at its front. -/
def searchDate : List Char → Bool
  | [] => false
  | c :: rest => dateAt (c :: rest) || searchDate rest

/-- `re.search` with the date pattern on a `String`, as a Boolean. -/
def hasDatePattern (s : String) : Bool := searchDate s.data

/-- Python `x.replace('.', '', 1)`: remove the first full stop, if any. -/
def removeFirstDot : List Char → List Char
  | [] => []
  | c :: rest => if c = '.' then rest else c :: removeFirstDot rest

/-- Python `str.isdigit` (ASCII core): nonempty and all digits. -/
def pyIsDigit (cs : List Char) : Bool := !cs.isEmpty && cs.all Char.isDigit

/-- A Column Profile: the per-column summary dictionary built by
`agent1_analyze`. -/
structure ColProfile where
  dtype : String
  nulls : Nat
  non_nulls : Nat
  unique : Nat
  sample_values : List String
  max_len : Nat
  is_probably_date : Bool
  is_probably_numeric : Bool
  deriving DecidableEq

/-- Embedding of the profiling loop body of `agent1_analyze`
(src/utils/agents.py, lines 36-57).  A column is its list of cells,
`none` for a pandas null; non-null cells are carried as the strings that
`dropna().astype(str)` yields.  `dtype` is the pandas dtype string, an
input at the pandas boundary.  The float mean of the numeric check is
modelled as an exact rational comparison: `mean > 0.8` becomes
`5 * count > 4 * total`. -/
def profileColumn (dtype : String) (col : List (Option String)) : ColProfile :=
  let col_data := col.filterMap id
  let sample_values := col_data.take 10
  let digitCount := (col_data.filter (fun s => pyIsDigit (removeFirstDot s.data))).length
  { dtype := dtype
  , nulls := (col.filter (fun x => x.isNone)).length
  , non_nulls := (col.filter (fun x => x.isSome)).length
  , unique := col_data.dedup.length
  , sample_values := sample_values
  , max_len := (col_data.map String.length).foldl max 0
  , is_probably_date := sample_values.any (fun s => hasDatePattern s)
  , is_probably_numeric := !col_data.isEmpty && decide (5 * digitCount > 4 * col_data.length) }

/-- The analysis stage's summary: one Column Profile per column.  A data
frame at the pandas boundary is a list of (column name, dtype, cells)
triples, each column `df.shape[0]` cells long. -/
def agent1_summary (df : List (String × String × List (Option String))) :
    List (String × ColProfile) :=
  df.map (fun c => (c.1, profileColumn c.2.1 c.2.2))

/-- Does `p` name a file returned by `glob(UPLOAD_DIR + "/" + fid + "*")`:
directly inside the uploads directory with a name beginning with `fid`
(`*` does not cross a path separator)? -/
def uploadGlobMatch (fid p : String) : Bool :=
  match dropPre? (UPLOAD_DIR ++ "/" ++ fid).data p.data with
  | some rest => rest.all (fun c => c != '/')
  | none => false

/-- Is `p` inside the tree that `shutil.rmtree dir` removes? -/
def underDir (dir p : String) : Bool := (dir ++ "/").data.isPrefixOf p.data

/-- The set of paths `cleanup_files fid` removes, as a predicate on file
paths: the upload glob, the cleaned table, and the per-identifier script
and report folders. -/
def cleanupRemoves (fid p : String) : Bool :=
  uploadGlobMatch fid p
  || p == CLEANED_DIR ++ "/cleaned_" ++ fid ++ ".csv"
  || underDir (SCRIPTS_DIR ++ "/" ++ fid) p
  || underDir (REPORTS_DIR ++ "/" ++ fid) p

/-- Embedding of `cleanup_files` (src/utils/helpers.py, lines 59-77) over
a filesystem modelled as the list of its file paths. -/
def cleanup_files (fid : String) (fs : List String) : List String :=
  fs.filter (fun p => !cleanupRemoves fid p)

/-- Outcome of the master-pass page: blocked by its precondition, or a
committed final artifact handed onward, or failure. -/
inductive MasterOutcome where
  | blocked
  | committedM (final_out : String)
  | failedM
  deriving DecidableEq

/-- `agent4_master_clean`'s output path (src/utils/agents.py, line
216). -/
def final_out_path (file_id : String) : String :=
  CLEANED_DIR ++ "/final_" ++ file_id ++ ".csv"

/-- Python truthiness of a string session entry. -/
def truthy (s : String) : Bool := s != ""

/-- Embedding of the master-pass page logic (src/pages/master_agent.py):
the page is blocked unless `st.session_state.clean_out` is set and exists
on disk; otherwise the final script is executed, and the final artifact
path is handed onward (preview, download) only when the run exited with
status 0 and the expected output exists on disk (line 24,
`if c == 0 and os.path.exists(final_out)`). -/
def master_page (clean_out : Option String) (exs : String → Bool)
    (exitCode : Int) (file_id : String) : MasterOutcome :=
  match clean_out with
  | none => .blocked
  | some p =>
    if exs p then
      if exitCode == 0 && exs (final_out_path file_id) then
        .committedM (final_out_path file_id)
      else .failedM
    else .blocked

/-- Embedding of the QA-report page preconditions (src/pages/qa_report.py,
lines 8-16): Agent 3 runs only when the session's cleaned path is set,
truthy and present on disk, and the source path is set, truthy and present
on disk. -/
def qa_page_runs (cleaned_out src_path : Option String)
    (exs : String → Bool) : Bool :=
  match cleaned_out with
  | none => false
  | some c =>
    truthy c && exs c &&
      (match src_path with
       | none => false
       | some s => truthy s && exs s)

/-- The states of the Cleaning Orchestrator of spec section 4.5. -/
inductive CleanState where
  | noAnalysis
  | committedS
  | failedS
  deriving DecidableEq

/-- Modelled from the spec: the Cleaning Orchestrator's terminal state for
one cleaning attempt (`agent2_clean`, the function src/pages/clean_data.py
invokes, is absent from the source tree; spec section 4.5 is the
authority).  An attempt that never yields a valid program stays in
`NoAnalysis`; otherwise it commits exactly when execution succeeded (exit
status zero) and the output table was durably written, and fails
otherwise. -/
def orchestrateAttempt (validProgram : Bool) (exitCode : Int)
    (tableWritten : Bool) : CleanState :=
  if !validProgram then .noAnalysis
  else if exitCode == 0 && tableWritten then .committedS
  else .failedS

/-- Modelled from the spec: only committed artifact paths are exposed to
downstream stages (spec section 4.5, invariant). -/
def exposeResult (st : CleanState) (path : String) : Option String :=
  if st = .committedS then some path else none

/-- Modelled from the spec: `extract_wrapped` of the extraction-idempotence
property (spec section 8) — wrap a code string in a single fenced code
block. -/
def wrapFence (code : String) : String := "```\n" ++ code ++ "\n```"

/-! ### Helper lemmas about lists and the string utilities -/

lemma isPrefixOf_append_self (a t : List Char) : a.isPrefixOf (a ++ t) = true := by
  rw [List.isPrefixOf_iff_prefix]
  exact List.prefix_append a t

lemma isPrefixOf_ex {a b : List Char} (h : a.isPrefixOf b = true) :
    ∃ t, b = a ++ t := by
  rcases List.isPrefixOf_iff_prefix.mp h with ⟨t, ht⟩
  exact ⟨t, ht.symm⟩

lemma hasSub_cons (pat : List Char) (c : Char) (rest : List Char)
    (h : hasSub pat rest = true) : hasSub pat (c :: rest) = true := by
  simp [hasSub, h]

lemma hasSub_here (pat post : List Char) : hasSub pat (pat ++ post) = true := by
  cases pat with
  | nil => cases post <;> simp [hasSub, List.isPrefixOf]
  | cons x xs => simp [hasSub, isPrefixOf_append_self]

lemma hasSub_append_left (pat xs ys : List Char) (h : hasSub pat ys = true) :
    hasSub pat (xs ++ ys) = true := by
  induction xs with
  | nil => simpa using h
  | cons c cs ih => exact hasSub_cons _ _ _ ih

lemma hasSub_middle (pre pat post : List Char) :
    hasSub pat (pre ++ (pat ++ post)) = true :=
  hasSub_append_left _ _ _ (hasSub_here pat post)

lemma takeWhile_append_all {p : Char → Bool} (w ys : List Char)
    (h : ∀ c ∈ w, p c = true) : (w ++ ys).takeWhile p = w ++ ys.takeWhile p := by
  induction w with
  | nil => simp
  | cons c cs ih =>
    have hc : p c = true := h c (List.mem_cons_self c cs)
    have ih' := ih (fun x hx => h x (List.mem_cons_of_mem c hx))
    simp [List.takeWhile_cons, hc, ih']

lemma dropWhile_append_all {p : Char → Bool} (w ys : List Char)
    (h : ∀ c ∈ w, p c = true) : (w ++ ys).dropWhile p = ys.dropWhile p := by
  induction w with
  | nil => simp
  | cons c cs ih =>
    have hc : p c = true := h c (List.mem_cons_self c cs)
    have ih' := ih (fun x hx => h x (List.mem_cons_of_mem c hx))
    simp [List.dropWhile_cons, hc, ih']

lemma dropWhile_append_of_ne_nil {p : Char → Bool} (xs ys : List Char)
    (h : xs.dropWhile p ≠ []) :
    (xs ++ ys).dropWhile p = xs.dropWhile p ++ ys := by
  induction xs with
  | nil => simp at h
  | cons c cs ih =>
    cases hc : p c with
    | true =>
      rw [List.dropWhile_cons_of_pos hc] at h
      simp [List.dropWhile_cons, hc, ih h]
    | false => simp [List.dropWhile_cons, hc]

lemma dropWhile_head_false {p : Char → Bool} :
    ∀ (l : List Char) (c : Char) (m : List Char),
      l.dropWhile p = c :: m → p c = false := by
  intro l
  induction l with
  | nil => intro c m h; simp at h
  | cons x xs ih =>
    intro c m h
    cases hx : p x with
    | true => rw [List.dropWhile_cons_of_pos hx] at h; exact ih c m h
    | false =>
      rw [List.dropWhile_cons_of_neg (by simp [hx])] at h
      cases h; exact hx

lemma pyStripList_eq_nil_iff (l : List Char) :
    pyStripList l = [] ↔ ∀ c ∈ l, isPySpace c = true := by
  unfold pyStripList
  rw [List.reverse_eq_nil_iff, List.dropWhile_eq_nil_iff]
  constructor
  · intro h c hc
    rw [← List.takeWhile_append_dropWhile isPySpace l] at hc
    rcases List.mem_append.mp hc with h1 | h2
    · exact List.mem_takeWhile_imp h1
    · exact h _ (List.mem_reverse.mpr h2)
  · intro h c hc
    exact h c ((List.dropWhile_sublist isPySpace).subset (List.mem_reverse.mp hc))

lemma pyStripList_front {w : List Char} (xs : List Char)
    (h : ∀ c ∈ w, isPySpace c = true) :
    pyStripList (w ++ xs) = pyStripList xs := by
  unfold pyStripList
  rw [dropWhile_append_all w xs h]

lemma pyStripList_back {v : List Char} (xs : List Char)
    (h : ∀ c ∈ v, isPySpace c = true) :
    pyStripList (xs ++ v) = pyStripList xs := by
  by_cases hall : ∀ c ∈ xs, isPySpace c = true
  · rw [(pyStripList_eq_nil_iff _).mpr hall, (pyStripList_eq_nil_iff _).mpr]
    intro c hc
    rcases List.mem_append.mp hc with h1 | h2
    · exact hall c h1
    · exact h c h2
  · have hnn : xs.dropWhile isPySpace ≠ [] := by
      rw [Ne, List.dropWhile_eq_nil_iff]; exact hall
    unfold pyStripList
    rw [dropWhile_append_of_ne_nil _ _ hnn, List.reverse_append,
        dropWhile_append_all _ _ (fun c hc => h c (List.mem_reverse.mp hc))]

lemma firstIdxAux_eq_none_iff (p : List Char → Bool) (ls : List (List Char)) :
    firstIdxAux p ls = none ↔ ∀ l ∈ ls, p l = false := by
  induction ls with
  | nil => simp [firstIdxAux]
  | cons l ls ih =>
    cases h : p l with
    | true => simp [firstIdxAux, h]
    | false => simp [firstIdxAux, h, Option.map_eq_none', ih]

lemma firstIdxAux_eq_some_of (p : List Char → Bool) (ls : List (List Char)) :
    ∀ (i : Nat), i < ls.length → p (ls.getD i []) = true →
      (∀ j, j < i → p (ls.getD j []) = false) →
      firstIdxAux p ls = some i := by
  induction ls with
  | nil => intro i hi _ _; simp at hi
  | cons l ls ih =>
    intro i hi hp hmin
    cases i with
    | zero =>
      simp only [List.getD_cons_zero] at hp
      simp [firstIdxAux, hp]
    | succ n =>
      have h0 : p l = false := by
        have := hmin 0 (Nat.succ_pos n)
        simpa using this
      have hrec := ih n (by simpa using hi) (by simpa using hp)
        (fun j hj => by
          have := hmin (j + 1) (Nat.succ_lt_succ hj)
          simpa using this)
      simp [firstIdxAux, h0, hrec]

lemma firstIdxAux_imp (p : List Char → Bool) :
    ∀ (ls : List (List Char)) (i : Nat), firstIdxAux p ls = some i →
      i < ls.length ∧ p (ls.getD i []) = true := by
  intro ls
  induction ls with
  | nil => intro i h; simp [firstIdxAux] at h
  | cons l ls ih =>
    intro i h
    cases hl : p l with
    | true =>
      simp [firstIdxAux, hl] at h
      subst h
      simpa using hl
    | false =>
      simp [firstIdxAux, hl] at h
      rcases h with ⟨n, hn, rfl⟩
      rcases ih n hn with ⟨h1, h2⟩
      exact ⟨Nat.succ_lt_succ h1, by simpa using h2⟩

lemma filter_none_add_filter_some (col : List (Option String)) :
    (col.filter (fun x => x.isNone)).length +
      (col.filter (fun x => x.isSome)).length = col.length := by
  induction col with
  | nil => rfl
  | cons c cs ih =>
    cases c <;> simp [List.filter] <;> omega

/-! ### Claim theorems -/

/-- Claim C2: the sandboxed executor `run_script` never raises to its
caller (it is a total function of the process outcome): a timeout becomes
exit status 1 (non-zero) with a diagnostic naming the timeout in the
stderr slot, any other launch failure becomes exit status 1 with the
underlying error text in the diagnostic slot, and a completed process's
exit status, stdout and stderr are returned unchanged and in full. -/
theorem c2_executor_never_raises (timeout : Nat) :
    (∀ rc out err, run_script (.completed rc out err) timeout = (rc, out, err)) ∧
    ((run_script .timedout timeout).1 ≠ 0 ∧
      hasSub "timed out".data (run_script .timedout timeout).2.2.data = true ∧
      hasSub (toString timeout).data (run_script .timedout timeout).2.2.data = true) ∧
    (∀ msg, (run_script (.failed msg) timeout).1 ≠ 0 ∧
      hasSub msg.data (run_script (.failed msg) timeout).2.2.data = true) := by
  refine ⟨fun rc out err => rfl, ⟨by simp [run_script], ?_, ?_⟩,
    fun msg => ⟨by simp [run_script], ?_⟩⟩
  · show hasSub "timed out".data
      ("Script timed out after " ++ toString timeout ++ " seconds").data = true
    rw [show ("Script timed out after " : String) =
      "Script " ++ "timed out" ++ " after " from rfl]
    simp only [String.data_append, List.append_assoc]
    exact hasSub_middle _ _ _
  · show hasSub (toString timeout).data
      ("Script timed out after " ++ toString timeout ++ " seconds").data = true
    simp only [String.data_append, List.append_assoc]
    exact hasSub_middle _ _ _
  · show hasSub msg.data ("Error running script: " ++ msg).data = true
    have := hasSub_middle "Error running script: ".data msg.data []
    simpa [String.data_append] using this

/-- Witness for C2 at a concrete timeout and launch-failure message. -/
theorem c2_executor_never_raises_witness :
    (run_script (.failed "No such file or directory") 300).1 ≠ 0 :=
  ((c2_executor_never_raises 300).2.2 "No such file or directory").1

/-- Claim C7: the code validator is total (never raises; the shallow
embedding is a total function of the parser outcome); when the external
parser accepts the text the validator returns `(True, "")` with an empty
diagnostic, and when the parser rejects it — e.g. for an unbalanced
construct — with a non-empty exception message `e`, the validator returns
`(False, e)`, whose diagnostic is non-empty. -/
theorem c7_validator_contract (parse : String → Except String Unit) (code : String) :
    (parse code = .ok () → _is_valid_python parse code = (true, "")) ∧
    (∀ e, parse code = .error e →
      _is_valid_python parse code = (false, e) ∧
        (e ≠ "" → (_is_valid_python parse code).2 ≠ "")) := by
  constructor
  · intro h; simp [_is_valid_python, h]
  · intro e h
    constructor
    · simp [_is_valid_python, h]
    · intro he; simp [_is_valid_python, h, he]

/-- Witness for C7: a parser model that rejects an unmatched opening
bracket with CPython's message, and accepts a well-formed assignment. -/
theorem c7_validator_contract_witness :
    _is_valid_python
      (fun s => if s = "print(" then Except.error "unexpected EOF while parsing" else Except.ok ())
      "print(" = (false, "unexpected EOF while parsing") ∧
    _is_valid_python
      (fun s => if s = "print(" then Except.error "unexpected EOF while parsing" else Except.ok ())
      "x = 1" = (true, "") := by
  constructor
  · exact ((c7_validator_contract _ "print(").2 "unexpected EOF while parsing" rfl).1
  · exact (c7_validator_contract _ "x = 1").1 rfl

/-- Claim C9: every Column Profile produced by the analysis stage
satisfies `nulls + non_nulls = row_count` (the length of the column) and
carries at most 10 sample values. -/
theorem c9_profile_invariant (df : List (String × String × List (Option String)))
    (name dtype : String) (col : List (Option String))
    (h : (name, dtype, col) ∈ df) :
    (name, profileColumn dtype col) ∈ agent1_summary df ∧
    (profileColumn dtype col).nulls + (profileColumn dtype col).non_nulls = col.length ∧
    (profileColumn dtype col).sample_values.length ≤ 10 := by
  refine ⟨List.mem_map.mpr ⟨(name, dtype, col), h, rfl⟩, ?_, ?_⟩
  · exact filter_none_add_filter_some col
  · exact List.length_take_le 10 _

/-- Witness for C9 on a concrete one-column frame with a null. -/
theorem c9_profile_invariant_witness :
    ("a", profileColumn "object" [some "1", none]) ∈
      agent1_summary [("a", "object", [some "1", (none : Option String)])] ∧
    (profileColumn "object" [some "1", none]).nulls +
      (profileColumn "object" [some "1", none]).non_nulls = 2 ∧
    (profileColumn "object" [some "1", none]).sample_values.length ≤ 10 :=
  c9_profile_invariant [("a", "object", [some "1", none])] "a" "object"
    [some "1", none] (by decide)

/-- Claim C10 (refuted by evaluation): `cleanup_files` does not remove all
artifact kinds scoped to a dataset identifier.  On a filesystem holding
one artifact of each kind for identifier `abc`, cleanup removes the raw
upload, the generated script folder, the cleaned table and the report
folder, but leaves the final table `final_abc.csv` and the final-pass
script folder `scripts/abc_final/` dangling. -/
theorem c10_cleanup_misses_final_table :
    cleanup_files "abc"
      ["app_data/uploads/abc.csv",
       "app_data/cleaned/cleaned_abc.csv",
       "app_data/cleaned/final_abc.csv",
       "app_data/scripts/abc/clean_abc.py",
       "app_data/scripts/abc_final/clean_abc_final.py",
       "app_data/reports/abc/report_abc.md"] =
      ["app_data/cleaned/final_abc.csv",
       "app_data/scripts/abc_final/clean_abc_final.py"] := by
  decide

/-- Claim C3: commit atomicity and the downstream-observation invariant.
(1) On the master pass (src/pages/master_agent.py), if the final table is
absent on disk the page reaches the failure branch, never the committed
one — in particular even when execution reported success; and the final
artifact is handed onward only when the exit status is 0 and the artifact
exists.  (2) The QA page (src/pages/qa_report.py) runs Agent 3 only when
the session's cleaned path and source path are both set and present on
disk.  (3) In the spec-modelled Cleaning Orchestrator, a path is exposed
downstream only from the `Committed` state, which requires exit status 0
and a durably written table; success with an absent table is `Failed`. -/
theorem c3_commit_invariant :
    (∀ (p : String) (exs : String → Bool) (c : Int) (fid : String),
      exs p = true → exs (final_out_path fid) = false →
      master_page (some p) exs c fid = .failedM) ∧
    (∀ (clean_out : Option String) (exs : String → Bool) (c : Int) (fid out : String),
      master_page clean_out exs c fid = .committedM out →
      out = final_out_path fid ∧ c = 0 ∧ exs out = true) ∧
    (∀ (cleaned src : Option String) (exs : String → Bool),
      qa_page_runs cleaned src exs = true →
      ∃ cp sp, cleaned = some cp ∧ exs cp = true ∧ src = some sp ∧ exs sp = true) ∧
    (∀ (v : Bool) (c : Int) (w : Bool) (path p : String),
      exposeResult (orchestrateAttempt v c w) path = some p →
      orchestrateAttempt v c w = .committedS ∧ v = true ∧ c = 0 ∧ w = true) ∧
    orchestrateAttempt true 0 false = .failedS := by
  refine ⟨?_, ?_, ?_, ?_, by decide⟩
  · intro p exs c fid hp hf
    simp [master_page, hp, hf]
  · intro clean_out exs c fid out h
    cases clean_out with
    | none => simp [master_page] at h
    | some p =>
      by_cases hp : exs p = true
      · by_cases hc : (c == 0 && exs (final_out_path fid)) = true
        · simp [master_page, hp, hc] at h
          rcases Bool.and_eq_true_iff.mp hc with ⟨hc0, hex⟩
          exact ⟨h.symm, by simpa using hc0, h ▸ hex⟩
        · simp [master_page, hp, hc] at h
      · simp [master_page, hp] at h
  · intro cleaned src exs h
    cases cleaned with
    | none => simp [qa_page_runs] at h
    | some cp =>
      cases src with
      | none => simp [qa_page_runs] at h
      | some sp =>
        simp only [qa_page_runs, Bool.and_eq_true] at h
        exact ⟨cp, sp, rfl, h.1.2, rfl, h.2.2⟩
  · intro v c w path p h
    cases v with
    | false => simp [orchestrateAttempt, exposeResult] at h
    | true =>
      by_cases hc : (c == 0 && w) = true
      · rcases Bool.and_eq_true_iff.mp hc with ⟨hc0, hw⟩
        refine ⟨by simp [orchestrateAttempt, hc], rfl, by simpa using hc0, hw⟩
      · simp [orchestrateAttempt, hc, exposeResult] at h

/-- Witness for C3: a session where execution reported success but the
final table is absent fails the master pass. -/
theorem c3_commit_invariant_witness :
    master_page (some "x") (fun s => s == "x") 0 "f" = .failedM :=
  c3_commit_invariant.1 "x" (fun s => s == "x") 0 "f" (by decide) (by decide)

/-- Claim C4: `agent3_qa` errors immediately when either table is absent
on disk, and otherwise reports exactly the row/column counts obtained by
re-reading both tables through the Tabular Reader, with deltas equal to
after-minus-before (hence `0` for a no-op transform). -/
theorem c4_qa_metrics (exs : String → Bool) (readT : String → Table)
    (client : String → String → String) (dumps : QaMetrics → String)
    (s c fid : String) :
    ((exs s = false ∨ exs c = false) →
      agent3_qa exs readT client dumps s c fid =
        .error "Original or cleaned file missing.") ∧
    (exs s = true → exs c = true →
      ∃ m report, agent3_qa exs readT client dumps s c fid =
          .ok (m, report, REPORTS_DIR ++ "/" ++ fid ++ "/report_" ++ fid ++ ".md") ∧
        m.before_rows = (readT s).rows ∧ m.before_cols = (readT s).cols ∧
        m.after_rows = (readT c).rows ∧ m.after_cols = (readT c).cols ∧
        m.row_delta = (m.after_rows : Int) - (m.before_rows : Int) ∧
        m.col_delta = (m.after_cols : Int) - (m.before_cols : Int) ∧
        (m.after_rows = m.before_rows → m.row_delta = 0) ∧
        (m.after_cols = m.before_cols → m.col_delta = 0)) := by
  constructor
  · intro h
    rcases h with h | h <;> simp [agent3_qa, h]
  · intro h1 h2
    have hres : agent3_qa exs readT client dumps s c fid =
        .ok ({ before_rows := (readT s).rows, before_cols := (readT s).cols,
               after_rows := (readT c).rows, after_cols := (readT c).cols,
               row_delta := ((readT c).rows : Int) - ((readT s).rows : Int),
               col_delta := ((readT c).cols : Int) - ((readT s).cols : Int) },
             client qa_system_prompt
               (dumps { before_rows := (readT s).rows, before_cols := (readT s).cols,
                        after_rows := (readT c).rows, after_cols := (readT c).cols,
                        row_delta := ((readT c).rows : Int) - ((readT s).rows : Int),
                        col_delta := ((readT c).cols : Int) - ((readT s).cols : Int) }),
             REPORTS_DIR ++ "/" ++ fid ++ "/report_" ++ fid ++ ".md") := by
      simp [agent3_qa, h1, h2]
    exact ⟨_, _, hres, rfl, rfl, rfl, rfl, rfl, rfl,
      fun h => by simp at h; simp [h], fun h => by simp at h; simp [h]⟩

/-- Witness for C4: the spec's no-op scenario, both tables 100 rows by 5
columns, giving zero deltas. -/
theorem c4_qa_metrics_witness :
    ∃ m report,
      agent3_qa (fun _ => true) (fun _ => ⟨100, 5⟩) (fun _ _ => "report") (fun _ => "ctx")
          "src.csv" "cleaned.csv" "f" =
        .ok (m, report, REPORTS_DIR ++ "/" ++ "f" ++ "/report_" ++ "f" ++ ".md") ∧
      m.before_rows = 100 ∧ m.before_cols = 5 ∧
      m.after_rows = 100 ∧ m.after_cols = 5 ∧
      m.row_delta = (m.after_rows : Int) - (m.before_rows : Int) ∧
      m.col_delta = (m.after_cols : Int) - (m.before_cols : Int) ∧
      (m.after_rows = m.before_rows → m.row_delta = 0) ∧
      (m.after_cols = m.before_cols → m.col_delta = 0) :=
  (c4_qa_metrics (fun _ => true) (fun _ => ⟨100, 5⟩) (fun _ _ => "report")
    (fun _ => "ctx") "src.csv" "cleaned.csv" "f").2 rfl rfl

lemma stmtLine_has_nonws (l : List Char) (h : isStmtLine l = true) :
    ∃ c ∈ l, isPySpace c = false := by
  rcases List.any_eq_true.mp h with ⟨p, hp, hpre⟩
  have hne : p ≠ [] := by
    simp only [stmtStarts, List.mem_map] at hp
    rcases hp with ⟨s, hs, rfl⟩
    simp at hs
    rcases hs with h|h|h|h|h|h|h|h|h|h <;> subst h <;> decide
  rcases isPrefixOf_ex hpre with ⟨t, ht⟩
  rcases p with _ | ⟨c, cs⟩
  · exact absurd rfl hne
  · have hd : l.dropWhile isPySpace = c :: (cs ++ t) := by simpa using ht
    have hcl : c ∈ l := (List.dropWhile_sublist isPySpace).subset
      (by rw [hd]; exact List.mem_cons_self c _)
    exact ⟨c, hcl, dropWhile_head_false l c _ hd⟩

lemma mem_joinNL_head (x : List Char) (rest : List (List Char)) (c : Char)
    (hc : c ∈ x) : c ∈ joinNL (x :: rest) := by
  cases rest with
  | nil => simpa [joinNL] using hc
  | cons y ys => simp [joinNL, List.mem_append, hc]

/-- Claim C1: the transform generator invokes the generation service at
most twice and terminates (the embedding is a total function of its
oracles).  When the first extracted program passes the syntax check,
exactly one call is made and its dedented extraction is returned; when it
fails, exactly one retry is issued whose prompt is
`agent2_retry_prompt diagnostic context` — which embeds the validator's
diagnostic and the serialized original context — and the re-extracted
retry response is returned whatever it contains, never looped on. -/
theorem c1_bounded_retry (client : String → String → String)
    (parse : String → Except String Unit)
    (dumps : String → String → String → String → String)
    (src issues mapping fid : String) :
    (agent2_generate client parse dumps src issues mapping fid).2.length ≤ 2 ∧
    ((_is_valid_python parse (_extract_code_from_text
        (client agent2_system_prompt (agent2_ctx dumps src issues mapping fid)))).1 = true →
      agent2_generate client parse dumps src issues mapping fid =
        ((dedent (_extract_code_from_text
            (client agent2_system_prompt (agent2_ctx dumps src issues mapping fid))),
          agent2_out_path fid),
         [(agent2_system_prompt, agent2_ctx dumps src issues mapping fid)])) ∧
    ((_is_valid_python parse (_extract_code_from_text
        (client agent2_system_prompt (agent2_ctx dumps src issues mapping fid)))).1 = false →
      agent2_generate client parse dumps src issues mapping fid =
        ((dedent (_extract_code_from_text (client
            (agent2_retry_prompt
              (_is_valid_python parse (_extract_code_from_text
                (client agent2_system_prompt (agent2_ctx dumps src issues mapping fid)))).2
              (agent2_ctx dumps src issues mapping fid)) "")),
          agent2_out_path fid),
         [(agent2_system_prompt, agent2_ctx dumps src issues mapping fid),
          (agent2_retry_prompt
            (_is_valid_python parse (_extract_code_from_text
              (client agent2_system_prompt (agent2_ctx dumps src issues mapping fid)))).2
            (agent2_ctx dumps src issues mapping fid), "")])) ∧
    (∀ diag ctx : String,
      hasSub diag.data (agent2_retry_prompt diag ctx).data = true ∧
      hasSub ctx.data (agent2_retry_prompt diag ctx).data = true) := by
  refine ⟨?_, ?_, ?_, ?_⟩
  · by_cases h : (_is_valid_python parse (_extract_code_from_text
        (client agent2_system_prompt (agent2_ctx dumps src issues mapping fid)))).1 = true
    · simp [agent2_generate, h]
    · simp [agent2_generate, h]
  · intro h
    simp [agent2_generate, h]
  · intro h
    simp [agent2_generate, h]
  · intro diag ctx
    constructor
    · show hasSub diag.data
        ("\nPrevious code had syntax errors: " ++ diag ++
         ".\nReturn ONLY valid Python code as plain text. No markdown, no ``` fences.\nContext: " ++
         ctx ++ "\n").data = true
      simp only [String.data_append, List.append_assoc]
      exact hasSub_middle _ _ _
    · show hasSub ctx.data
        ("\nPrevious code had syntax errors: " ++ diag ++
         ".\nReturn ONLY valid Python code as plain text. No markdown, no ``` fences.\nContext: " ++
         ctx ++ "\n").data = true
      simp only [String.data_append, List.append_assoc]
      exact hasSub_append_left _ _ _ (hasSub_append_left _ _ _ (hasSub_middle _ _ _))

/-- Witness for C1: with a parser that rejects everything, the generator
still makes exactly two service calls and terminates. -/
theorem c1_bounded_retry_witness :
    (agent2_generate (fun _ _ => "x +") (fun _ => Except.error "invalid syntax")
      (fun _ _ _ _ => "CTX") "s" "i" "m" "f").2.length = 2 := by
  have h := (c1_bounded_retry (fun _ _ => "x +") (fun _ => Except.error "invalid syntax")
      (fun _ _ _ _ => "CTX") "s" "i" "m" "f").2.2.1 rfl
  rw [h]
  rfl

/-- Claim C5: the extractor's priority order.  If the fence pattern
matches anywhere, the first match's capture, trimmed, is returned; else if
some line matches the statement-start pattern, the content from the first
such line to the end, joined and trimmed, is returned; else the whole
input is returned trimmed. -/
theorem c5_extractor_priority (text : String) :
    (∀ inner, fenceSearch text.data = some inner →
      _extract_code_from_text text = String.mk (pyStripList inner)) ∧
    (fenceSearch text.data = none →
      (∀ i, i < (splitlines text).length →
        isStmtLine ((splitlines text).getD i []) = true →
        (∀ j, j < i → isStmtLine ((splitlines text).getD j []) = false) →
        _extract_code_from_text text =
          String.mk (pyStripList (joinNL ((splitlines text).drop i)))) ∧
      ((∀ l ∈ splitlines text, isStmtLine l = false) →
        _extract_code_from_text text = pyStrip text)) := by
  refine ⟨?_, fun hf => ⟨?_, ?_⟩⟩
  · intro inner h
    simp [_extract_code_from_text, h]
  · intro i hi hp hmin
    have hidx := firstIdxAux_eq_some_of isStmtLine (splitlines text) i hi hp hmin
    simp [_extract_code_from_text, hf, hidx]
  · intro hall
    have hidx := (firstIdxAux_eq_none_iff isStmtLine (splitlines text)).mpr hall
    simp [_extract_code_from_text, hf, hidx]

/-- Witness for C5: a text with no fence whose second line opens with
`import`. -/
theorem c5_extractor_priority_witness :
    _extract_code_from_text "noise\nimport os\nx = 1" =
      String.mk (pyStripList (joinNL ((splitlines "noise\nimport os\nx = 1").drop 1))) :=
  ((c5_extractor_priority "noise\nimport os\nx = 1").2 (by decide)).1 1
    (by decide) (by decide) (by decide)

/-- Claim C6 (refuted as stated): the extractor does return an empty
result on some non-empty inputs — a whitespace-only input trims to the
empty string, and a fenced block whose body is whitespace-only yields an
empty capture after trimming. -/
theorem c6_extractor_total_counterexample :
    (" " : String) ≠ "" ∧ _extract_code_from_text " " = "" ∧
    ("``` ```" : String) ≠ "" ∧ _extract_code_from_text "``` ```" = "" := by
  refine ⟨by decide, by decide, by decide, by decide⟩

/-- Claim C6 as amended: the extractor is total by construction (a Lean
function; the source has no raising operation on its paths), and its
result is non-empty for every input that contains a non-whitespace
character and in which the fence pattern does not match. -/
theorem c6_extractor_total_amended (text : String)
    (hf : fenceSearch text.data = none)
    (hc : ∃ c ∈ text.data, isPySpace c = false) :
    _extract_code_from_text text ≠ "" := by
  have hmk : ∀ l : List Char, l ≠ [] → String.mk l ≠ "" := by
    intro l hl he
    exact hl (by simpa [String.ext_iff] using he)
  cases hidx : firstIdxAux isStmtLine (splitlines text) with
  | none =>
    have hres : _extract_code_from_text text = pyStrip text := by
      simp [_extract_code_from_text, hf, hidx]
    rw [hres]
    apply hmk
    rw [Ne, pyStripList_eq_nil_iff]
    rcases hc with ⟨c, hcm, hcw⟩
    intro hall
    rw [hall c hcm] at hcw
    cases hcw
  | some i =>
    have hres : _extract_code_from_text text =
        String.mk (pyStripList (joinNL ((splitlines text).drop i))) := by
      simp [_extract_code_from_text, hf, hidx]
    rw [hres]
    apply hmk
    rcases firstIdxAux_imp isStmtLine (splitlines text) i hidx with ⟨hlen, hstmt⟩
    rcases stmtLine_has_nonws _ hstmt with ⟨c, hcm, hcw⟩
    have hdrop : (splitlines text).drop i =
        (splitlines text).getD i [] :: (splitlines text).drop (i + 1) := by
      rw [List.getD_eq_getElem _ _ hlen]
      exact List.drop_eq_getElem_cons hlen
    rw [Ne, pyStripList_eq_nil_iff]
    intro hall
    have hcj : c ∈ joinNL ((splitlines text).drop i) := by
      rw [hdrop]; exact mem_joinNL_head _ _ _ hcm
    rw [hall c hcj] at hcw
    cases hcw

/-- Witness for C6 as amended, at a fence-free input with visible
characters. -/
theorem c6_extractor_total_amended_witness :
    _extract_code_from_text "abc" ≠ "" :=
  c6_extractor_total_amended "abc" (by decide) (by decide)

lemma tryW_of_close (wsRev t2 r : List Char) (h : findClose t2 = some r) :
    tryW wsRev t2 = some r := by
  cases wsRev <;> simp [tryW, h]

lemma prefix_ticks_extend (x : Char) (xs : List Char)
    (h : ticks3.isPrefixOf (x :: xs) = false) :
    ticks3.isPrefixOf (x :: (xs ++ '\n' :: ticks3)) = false := by
  cases xs with
  | nil =>
    have h1 : (btick == '\n') = false := by decide
    simp [ticks3, List.isPrefixOf, h1]
  | cons y ys =>
    cases ys with
    | nil =>
      have h1 : (btick == '\n') = false := by decide
      simp [ticks3, List.isPrefixOf, h1]
    | cons z zs =>
      simp only [ticks3, List.isPrefixOf, List.cons_append] at h ⊢
      simpa using h

lemma fenceSearch_at_ticks (body r : List Char)
    (h : matchAfterTicks body = some r) :
    fenceSearch (btick :: btick :: btick :: body) = some r := by
  have hsw : startsWithTicks (btick :: btick :: btick :: body) = true := by
    simp [startsWithTicks, ticks3, List.isPrefixOf]
  simp [fenceSearch, hsw, h]

lemma findClose0_receives : ∀ (xs : List Char), hasSub ticks3 xs = false →
    findClose0 (xs ++ '\n' :: ticks3) = some (xs ++ ['\n']) := by
  intro xs
  induction xs with
  | nil =>
    intro _
    show findClose0 ('\n' :: ticks3) = some ['\n']
    decide
  | cons x xs ih =>
    intro h
    have h' : ticks3.isPrefixOf (x :: xs) = false ∧ hasSub ticks3 xs = false := by
      simpa [hasSub] using h
    have hsw : startsWithTicks (x :: (xs ++ '\n' :: ticks3)) = false := by
      simpa [startsWithTicks] using prefix_ticks_extend x xs h'.1
    show findClose0 (x :: (xs ++ '\n' :: ticks3)) = some (x :: (xs ++ ['\n']))
    simp [findClose0, hsw, ih h'.2]

lemma matchAfterTicks_wrap (cs : List Char) (h : hasSub ticks3 cs = false) :
    matchAfterTicks ('\n' :: (cs ++ '\n' :: ticks3)) =
      some (cs.dropWhile isPySpace ++ ['\n']) := by
  have hpy : dropPre? pythonTag ('\n' :: (cs ++ '\n' :: ticks3)) = none := by
    show dropPre? ('p' :: "ython".data) ('\n' :: (cs ++ '\n' :: ticks3)) = none
    rw [show dropPre? ('p' :: "ython".data) ('\n' :: (cs ++ '\n' :: ticks3)) =
        if 'p' = '\n' then dropPre? "ython".data (cs ++ '\n' :: ticks3) else none from rfl,
      if_neg (by decide)]
  rw [matchAfterTicks, hpy]
  cases hm : cs.dropWhile isPySpace with
  | nil =>
    have hall : ∀ c ∈ cs, isPySpace c = true := List.dropWhile_eq_nil_iff.mp hm
    have ht : ('\n' :: (cs ++ '\n' :: ticks3)).takeWhile isPySpace =
        '\n' :: (cs ++ ['\n']) := by
      rw [List.takeWhile_cons_of_pos (by decide), takeWhile_append_all cs _ hall,
        show ('\n' :: ticks3).takeWhile isPySpace = ['\n'] from by decide]
    have hd : ('\n' :: (cs ++ '\n' :: ticks3)).dropWhile isPySpace = ticks3 := by
      rw [List.dropWhile_cons_of_pos (by decide), dropWhile_append_all cs _ hall,
        show ('\n' :: ticks3).dropWhile isPySpace = ticks3 from by decide]
    rw [ht, hd]
    have hrev : ('\n' :: (cs ++ ['\n'])).reverse = '\n' :: ('\n' :: cs).reverse := by
      rw [show ('\n' :: (cs ++ ['\n'])) = ('\n' :: cs) ++ ['\n'] from by simp,
        List.reverse_append]
      simp
    rw [hrev,
      show tryW ('\n' :: ('\n' :: cs).reverse) ticks3 =
        match findClose ticks3 with
        | some r => some r
        | none => tryW ('\n' :: cs).reverse ('\n' :: ticks3) from rfl,
      show findClose ticks3 = none from by decide,
      tryW_of_close _ _ ['\n'] (by decide)]
    rfl
  | cons c m =>
    have hc : isPySpace c = false := dropWhile_head_false cs c m hm
    have hsplit : cs = cs.takeWhile isPySpace ++ (c :: m) := by
      conv_lhs => rw [← List.takeWhile_append_dropWhile isPySpace cs]
      rw [hm]
    have hallw : ∀ x ∈ cs.takeWhile isPySpace, isPySpace x = true :=
      fun x hx => List.mem_takeWhile_imp hx
    have hshape : cs ++ '\n' :: ticks3 =
        cs.takeWhile isPySpace ++ (c :: (m ++ '\n' :: ticks3)) := by
      conv_lhs => rw [hsplit]
      simp
    have ht : ('\n' :: (cs ++ '\n' :: ticks3)).takeWhile isPySpace =
        '\n' :: cs.takeWhile isPySpace := by
      rw [List.takeWhile_cons_of_pos (by decide), hshape,
        takeWhile_append_all _ _ hallw, List.takeWhile_cons_of_neg (by simp [hc])]
      simp
    have hd : ('\n' :: (cs ++ '\n' :: ticks3)).dropWhile isPySpace =
        c :: (m ++ '\n' :: ticks3) := by
      rw [List.dropWhile_cons_of_pos (by decide), hshape,
        dropWhile_append_all _ _ hallw, List.dropWhile_cons_of_neg (by simp [hc])]
    rw [ht, hd]
    have hm' : hasSub ticks3 m = false := by
      cases hx : hasSub ticks3 m with
      | false => rfl
      | true =>
        have hcs : hasSub ticks3 cs = true := by
          rw [hsplit]
          exact hasSub_append_left _ _ _ (hasSub_cons _ _ _ hx)
        rw [hcs] at h
        cases h
    have hfc : findClose (c :: (m ++ '\n' :: ticks3)) = some (c :: (m ++ ['\n'])) := by
      show (findClose0 (m ++ '\n' :: ticks3)).map (fun r => c :: r) = _
      rw [findClose0_receives m hm']
      rfl
    rw [tryW_of_close _ _ _ hfc]
    rfl

/-- Claim C8: round-trip of extraction.  For every code string free of the
fence delimiter — so that wrapping it yields a text containing exactly one
fenced block — extracting from the wrapped text returns the original code
trimmed of leading and trailing whitespace. -/
theorem c8_extraction_roundtrip (code : String)
    (h : hasSub ticks3 code.data = false) :
    _extract_code_from_text (wrapFence code) = pyStrip code := by
  have hdata : (wrapFence code).data =
      btick :: btick :: btick :: ('\n' :: (code.data ++ '\n' :: ticks3)) := by
    show ("```\n" ++ code ++ "\n```").data = _
    rw [String.data_append, String.data_append,
      show ("```\n" : String).data = [btick, btick, btick, '\n'] from by decide,
      show ("\n```" : String).data = '\n' :: ticks3 from by decide]
    simp
  have hfs : fenceSearch (wrapFence code).data =
      some (code.data.dropWhile isPySpace ++ ['\n']) := by
    rw [hdata]
    exact fenceSearch_at_ticks _ _ (matchAfterTicks_wrap code.data h)
  have hres : _extract_code_from_text (wrapFence code) =
      String.mk (pyStripList (code.data.dropWhile isPySpace ++ ['\n'])) := by
    simp [_extract_code_from_text, hfs]
  rw [hres,
    pyStripList_back _ (by intro c hc; simp at hc; subst hc; rfl),
    show pyStripList (code.data.dropWhile isPySpace) = pyStripList code.data from by
      conv_rhs => rw [← List.takeWhile_append_dropWhile isPySpace code.data,
        pyStripList_front _ (fun x hx => List.mem_takeWhile_imp hx)]]
  rfl

/-- Witness for C8 at a concrete two-line program. -/
theorem c8_extraction_roundtrip_witness :
    _extract_code_from_text (wrapFence "import os\nx = 1") =
      pyStrip "import os\nx = 1" :=
  c8_extraction_roundtrip "import os\nx = 1" (by decide)

end MedClean
